import Mathlib

/-!
# Verification of the fansiterm virtual-terminal core

Shallow embedding of the escape-sequence framer, the CSI/SGR/ESC dispatchers
and the cursor/attribute state machine of the fansiterm repository
(current revisions: `vterm.go`, `ansi.go`, `escCSI.go`, `escOSC.go`, `rgb.go`,
`charsets.go`, `color_ansi.go`, `tiles` package, and the `Cursor`/`Config`
definitions).  Pixel contents are not tracked by the terminal state; instead
the software scroll primitive (`softVectorScroll` in `rgb.go`) and the
scroll-band clearing of `Scroll` (`color_ansi.go`) are embedded separately as
operations on pixel functions, and glyph rendering is tracked as a trace of
(column, row, rune-after-charset-remap) triples.

Go `int` is embedded as `Int`; Go's `%` on integers is truncated division
(`Int.tmod`).  Go runtime faults (out-of-range slice or array indexing) are
embedded as `Option`: a handler returns `none` exactly where the Go code
would fault at run time.
-/

namespace Fansiterm

/-- An RGB color as produced by `colorSystem.NewRGB` (`color_ansi.go`): the
red/green/blue bytes of an opaque color.  With the default `image.RGBA`
backing buffer the color-model conversion is the identity on these bytes. -/
structure Color where
  r : Nat
  g : Nat
  b : Nat
deriving DecidableEq, Repr

/-- `colorSystem.PaletteANSI` from `color_ansi.go` (the 16 VGA-ish colors). -/
def paletteANSI : List Color :=
  [⟨0, 0, 0⟩, ⟨127, 0, 0⟩, ⟨0, 170, 0⟩, ⟨170, 85, 0⟩,
   ⟨0, 0, 170⟩, ⟨170, 0, 170⟩, ⟨0, 170, 170⟩, ⟨200, 200, 200⟩,
   ⟨85, 85, 85⟩, ⟨255, 0, 0⟩, ⟨85, 255, 85⟩, ⟨255, 255, 85⟩,
   ⟨85, 85, 255⟩, ⟨255, 85, 255⟩, ⟨85, 255, 255⟩, ⟨255, 255, 255⟩]

/-- Indexing into `PaletteANSI`; the source only indexes with `0 ≤ n < 16`. -/
def paletteANSIget (n : Nat) : Color := paletteANSI.getD n ⟨0, 0, 0⟩

/-- The first 16 entries of `colorSystem.Palette256` (`color_ansi.go`). -/
def palette256base : List Color :=
  [⟨0, 0, 0⟩, ⟨128, 0, 0⟩, ⟨0, 128, 0⟩, ⟨128, 128, 0⟩,
   ⟨0, 0, 128⟩, ⟨128, 0, 128⟩, ⟨0, 128, 128⟩, ⟨192, 192, 192⟩,
   ⟨128, 128, 128⟩, ⟨255, 0, 0⟩, ⟨0, 255, 0⟩, ⟨255, 255, 0⟩,
   ⟨0, 0, 255⟩, ⟨255, 0, 255⟩, ⟨0, 255, 255⟩, ⟨255, 255, 255⟩]

/-- Color-cube channel level: the literal levels 0,95,135,175,215,255 used by
the `Palette256` table in `color_ansi.go` for entries 16–231. -/
def cubeLevel (k : Nat) : Nat := if k = 0 then 0 else 55 + 40 * k

/-- `colorSystem.Palette256` from `color_ansi.go`: 16 base colors, the
6×6×6 color cube (red-major, blue-minor, matching the literal table), and
the 24-step grayscale ramp 8,18,…,238.  This reproduces the 256 literal
entries of the source table. -/
def palette256 : List Color :=
  palette256base ++
    ((List.range 216).map fun i =>
      ⟨cubeLevel (i / 36), cubeLevel (i / 6 % 6), cubeLevel (i % 6)⟩) ++
    ((List.range 24).map fun i => ⟨8 + 10 * i, 8 + 10 * i, 8 + 10 * i⟩)

/-- Indexing into `Palette256` (in-range accesses only; the out-of-range
case is handled at each use site, where the Go code faults). -/
def palette256get (n : Nat) : Color := palette256.getD n ⟨0, 0, 0⟩

/-- `bound` from `ansi.go`: `min(max(x, minimum), maximum)`. -/
def bound (x lo hi : Int) : Int := min (max x lo) hi

/-- `splitParams` from `ansi.go`: split a parameter string at every `;`,
keeping empty segments (the final segment is always appended). -/
def splitParams : List Char → List (List Char)
  | [] => [[]]
  | c :: rest =>
    if c = ';' then [] :: splitParams rest
    else
      match splitParams rest with
      | s :: ss => (c :: s) :: ss
      | [] => [[c]]

/-- Digit-string value for `strconv.Atoi`: all characters must be decimal
digits and the string must be nonempty. -/
def digitsVal (s : List Char) : Option Int :=
  if s = [] then none
  else
    s.foldl
      (fun acc c =>
        acc.bind fun v =>
          if c.isDigit then some (10 * v + ((c.toNat : Int) - 48)) else none)
      (some 0)

/-- `strconv.Atoi` semantics for the argument sizes used here: an optional
sign followed by at least one decimal digit; anything else fails. -/
def atoi : List Char → Option Int
  | '-' :: rest => (digitsVal rest).map (fun v => -v)
  | '+' :: rest => digitsVal rest
  | s => digitsVal s

/-- `getNumericArgs` from `ansi.go`: split at `;` and convert each piece,
substituting `dflt` for pieces that do not parse. -/
def getNumericArgs (seq : List Char) (dflt : Int) : List Int :=
  (splitParams seq).map fun a => (atoi a).getD dflt

/-- `getRGB` from `ansi.go`: read up to three arguments as bytes (Go's
`uint8` conversion truncates modulo 256), missing arguments default to 0. -/
def getRGB (args : List Int) : Int × Int × Int :=
  ((args.getD 0 0).emod 256, (args.getD 1 0).emod 256, (args.getD 2 0).emod 256)

/-- The ST-terminated arm of `consumeEscSequence` (`ansi.go`, current
revision): scan from index `n` for BEL or `ESC \`, with the special case
that at `n = 2` a sequence beginning `ESC ] R` returns `n + 2`.  The `fuel`
counter only makes the recursion structural (hence kernel-computable); the
callers pass `fuel = data.length`, which always covers the scan, and once
`n ≥ data.length` the loop exits with `none` regardless of fuel. -/
def consumeSTGo (data : List Char) : Nat → Nat → Option Nat
  | 0, _ => none
  | fuel + 1, n =>
    if n < data.length then
      if n = 2 ∧ data.getD 2 '\x00' = 'R' ∧ data.getD 1 '\x00' = ']' then
        some (n + 2)
      else if data.getD n '\x00' = '\x07' ∨
          (data.getD (n - 1) '\x00' = '\x1b' ∧ data.getD n '\x00' = '\\') then
        some (n + 1)
      else consumeSTGo data fuel (n + 1)
    else none

/-- The CSI arm of `consumeEscSequence`: scan from index `n` for the first
byte `≥ 0x40` (same fuel discipline as `consumeSTGo`). -/
def consumeCSIGo (data : List Char) : Nat → Nat → Option Nat
  | 0, _ => none
  | fuel + 1, n =>
    if n < data.length then
      if 0x40 ≤ (data.getD n '\x00').toNat then some (n + 1)
      else consumeCSIGo data fuel (n + 1)
    else none

/-- `consumeEscSequence` from `ansi.go` (current revision): find the length
of the escape sequence starting at `data[0] = ESC`; `none` means the
framer reported `errEscapeSequenceIncomplete`. -/
def consumeEscSequence (data : List Char) : Option Nat :=
  if data.length < 2 then none
  else
    match data.getD 1 '\x00' with
    | 'X' => consumeSTGo data data.length 1
    | ']' => consumeSTGo data data.length 1
    | 'P' => consumeSTGo data data.length 1
    | '/' => consumeSTGo data data.length 1
    | '[' => consumeCSIGo data data.length 2
    | '(' => if data.length < 3 then none else some 3
    | ')' => if data.length < 3 then none else some 3
    | _ => some 2

/-- `altToUnicode` from `charsets.go`: the G1 alternate-charset remap table
(legacy DEC line-drawing aliases to Unicode code points). -/
def altToUnicode : List (Char × Char) :=
  [('0', Char.ofNat 9608), (Char.ofNat 0x61, Char.ofNat 9618),
   (Char.ofNat 0x68, Char.ofNat 9617), (Char.ofNat 0x6a, Char.ofNat 9496),
   (Char.ofNat 0x6b, Char.ofNat 9488), (Char.ofNat 0x6c, Char.ofNat 9484),
   (Char.ofNat 0x6d, Char.ofNat 9492), (Char.ofNat 0x6e, Char.ofNat 9532),
   ('q', Char.ofNat 9472), ('r', Char.ofNat 9472),
   (Char.ofNat 0x74, Char.ofNat 9500), (Char.ofNat 0x75, Char.ofNat 9508),
   (Char.ofNat 0x76, Char.ofNat 9524), (Char.ofNat 0x77, Char.ofNat 9516),
   (Char.ofNat 0x78, Char.ofNat 0x2502),
   ('(', Char.ofNat 0x25D6), (')', Char.ofNat 0x25D7),
   ('{', Char.ofNat 0xe000), ('}', Char.ofNat 0xe001),
   ('<', Char.ofNat 0xe002), ('>', Char.ofNat 0xe003)]

/-- Lookup in the `altToUnicode` map. -/
def altLookup (r : Char) : Option Char :=
  (altToUnicode.find? fun p => p.1 = r).map Prod.snd

/-- Glyph cell-width from `RenderRune` (`rgb.go`): 1 for runes ≤ 255,
otherwise the result of the external `go-runewidth` library.
Modelled from the spec: the `github.com/mattn/go-runewidth` dependency is
not part of this repository; per §4.6 of the spec it is an East-Asian-width
classification returning 0 for combining marks and 2 for wide characters.
Only runes ≤ 255 (width 1) are exercised by the claims. -/
def goRuneWidth (r : Char) : Int :=
  if r.toNat ≤ 255 then 1
  else if 0x300 ≤ r.toNat ∧ r.toNat ≤ 0x36F then 0
  else if (0x1100 ≤ r.toNat ∧ r.toNat ≤ 0x115F) ∨
      (0x2E80 ≤ r.toNat ∧ r.toNat ≤ 0xA4CF) ∨
      (0xAC00 ≤ r.toNat ∧ r.toNat ≤ 0xD7A3) ∨
      (0xF900 ≤ r.toNat ∧ r.toNat ≤ 0xFAFF) ∨
      (0xFF00 ≤ r.toNat ∧ r.toNat ≤ 0xFF60) ∨ 0x20000 ≤ r.toNat then 2
  else 1

/-- `Attr` from `vterm.go` (current revision): the active SGR state. -/
structure Attr where
  bold : Bool
  underline : Bool
  doubleUnderline : Bool
  strike : Bool
  blink : Bool
  reversed : Bool
  italic : Bool
  conceal : Bool
  fg : Color
  bg : Color
deriving DecidableEq, Repr

/-- The fields of `Device` (`vterm.go`), `Cursor` (cursor file) and `Config`
(config file) that the verified claims observe.  Pixel contents, the
alternate-screen snapshot and the `Properties` map are not tracked; glyph
rendering is tracked in `trace` as (column, row, rune delivered to the
underlying tile set after the active character set's remapping).  Replies
written to the `Output` sink are accumulated in `output`.
`g0alt`/`g1alt` record whether the G0/G1 slot is bound to the alternate
character set (`true`) or the regular one (`false`); the active tile set is
derived from them, `shift`, and the attribute state exactly as `updateAttr`
(`rgb.go`) derives it, so the stored-vs-derived distinction is not
observable through the write path (every dispatch ends in `updateAttr`). -/
structure TermState where
  cols : Int
  rows : Int
  col : Int
  row : Int
  prevCol : Int
  prevRow : Int
  cursorShow : Bool
  cursorVisible : Bool
  attr : Attr
  attrDefault : Attr
  g0alt : Bool
  g1alt : Bool
  shift : Nat
  tabSize : Int
  boldColors : Bool
  wraparound : Bool
  cursorKeyAppMode : Bool
  altScreenCfg : Bool
  scrollTop : Int
  scrollBottom : Int
  scrollAreaEmpty : Bool
  inputBuf : List Char
  output : String
  trace : List (Int × Int × Char)
deriving DecidableEq, Repr

/-- `Cursor.MoveRel` (cursor file): relative motion clamped to
`[0, cols−1] × [0, rows−1]`. -/
def cursorMoveRel (s : TermState) (x y : Int) : TermState :=
  { s with col := bound (x + s.col) 0 (s.cols - 1),
           row := bound (y + s.row) 0 (s.rows - 1) }

/-- `Cursor.MoveAbs` (cursor file): absolute motion clamped to
`[0, cols−1] × [0, rows−1]`. -/
def cursorMoveAbs (s : TermState) (x y : Int) : TermState :=
  { s with col := bound x 0 (s.cols - 1),
           row := bound y 0 (s.rows - 1) }

/-- `(*Device).Reset` (`vterm.go`, current revision): restore the default
attribute, rebind G0 to the regular set and G1 to the alternate set, clear
the screen (pixels, untracked), home the cursor, and reset the scroll
region to the whole screen. -/
def deviceReset (s : TermState) : TermState :=
  { s with attr := s.attrDefault,
           g0alt := false,
           g1alt := true,
           col := bound 0 0 (s.cols - 1),
           row := bound 0 0 (s.rows - 1),
           scrollAreaEmpty := true,
           scrollTop := 0,
           scrollBottom := s.rows - 1 }

/-- `setScrollRegion` (`color_ansi.go`, current revision).  The pixel-level
comparison `scrollArea.Eq(Render.Bounds())` holds exactly when the clamped
region is `[0, rows−1]` (the scroll area spans the full X range and its Y
range is `[top·cellH, (bottom+1)·cellH)` against bounds `[0, rows·cellH)`). -/
def setScrollRegion (s : TermState) (start e : Int) : TermState :=
  let top := bound (start - 1) 0 (s.rows - 1)
  let bot := bound (e - 1) 0 (s.rows - 1)
  if (start = 0 ∧ e = 0) ∨ start ≥ e ∨ (top = 0 ∧ bot = s.rows - 1) then
    { s with scrollTop := 0, scrollBottom := s.rows - 1, scrollAreaEmpty := true }
  else
    { s with scrollTop := top, scrollBottom := bot, scrollAreaEmpty := false }

/-- The device state right after `New` (`vterm.go`, current revision):
`Config` is `ConfigDefault` (tab size 8, bold colors on, wraparound flag
false), the default attribute is `PaletteANSI[7]` on `PaletteANSI[0]`, the
scroll region is the whole screen, and `Reset` has been applied. -/
def initState (cols rows : Int) : TermState :=
  deviceReset
    { cols := cols, rows := rows, col := 0, row := 0,
      prevCol := 0, prevRow := 0,
      cursorShow := true, cursorVisible := false,
      attr := ⟨false, false, false, false, false, false, false, false,
               ⟨0, 0, 0⟩, ⟨0, 0, 0⟩⟩,
      attrDefault := ⟨false, false, false, false, false, false, false, false,
                      paletteANSIget 7, paletteANSIget 0⟩,
      g0alt := false, g1alt := true, shift := 0,
      tabSize := 8, boldColors := true, wraparound := false,
      cursorKeyAppMode := false, altScreenCfg := false,
      scrollTop := 0, scrollBottom := rows - 1, scrollAreaEmpty := true,
      inputBuf := [], output := "", trace := [] }

/-- Whether the active character-set slot `g[shift]` is bound to the
alternate set (`updateAttr`, `rgb.go`; `shift` is only ever 0 or 1). -/
def activeAlt (s : TermState) : Bool :=
  if s.shift = 1 then s.g1alt else s.g0alt

/-- The rune delivered to the underlying tile set when rune `r` is drawn:
when the active slot is the alternate set, `AltCharSet` is the `Remap`
produced by `altCharsetViaUnicode` (`charsets.go`), whose `DrawTile`
rewrites `r` through `altToUnicode` before drawing from the base set
(`Remap.DrawTile`, `tiles` package); the regular set draws `r` itself. -/
def renderedRune (s : TermState) (r : Char) : Char :=
  if activeAlt s then (altLookup r).getD r else r

/-- SGR 1 (`escCSI.go`): set bold; if `BoldColors` is configured and the
foreground equals a base ANSI color `i ∈ [0,8)`, rebind it to
`PaletteANSI[i+8]` (first match wins, then break). -/
def sgrBoldOn (s : TermState) : TermState :=
  let s := { s with attr := { s.attr with bold := true } }
  if s.boldColors then
    match (List.range 8).find? (fun i => s.attr.fg = paletteANSIget i) with
    | some i => { s with attr := { s.attr with fg := paletteANSIget (i + 8) } }
    | none => s
  else s

/-- SGR 22 (`escCSI.go`): clear bold; with `BoldColors`, drop a bright ANSI
foreground back to its base half. -/
def sgrBoldOff (s : TermState) : TermState :=
  let s := { s with attr := { s.attr with bold := false } }
  if s.boldColors then
    match (List.range 8).find? (fun i => s.attr.fg = paletteANSIget (i + 8)) with
    | some i => { s with attr := { s.attr with fg := paletteANSIget i } }
    | none => s
  else s

/-- The SGR argument loop of `handleCSISequence` case `m` (`escCSI.go`,
current revision).  `none` models the Go runtime faults of the 38/48
extended-color branch: reading `args[i+2]` past the end of the argument
slice, and indexing the 256-entry `Palette256` array with an out-of-range
index (the code computes `args[i] % 256` — the 38/48 selector itself —
instead of reducing the palette index). -/
def sgrGo (args : List Int) : Nat → TermState → Nat → Option TermState
  | 0, s, _ => some s
  | fuel + 1, s, i =>
  if i < args.length then
    let a := args.getD i 0
    if a = 0 then sgrGo args fuel { s with attr := s.attrDefault } (i + 1)
    else if a = 1 then sgrGo args fuel (sgrBoldOn s) (i + 1)
    else if a = 22 then sgrGo args fuel (sgrBoldOff s) (i + 1)
    else if a = 3 then
      sgrGo args fuel { s with attr := { s.attr with italic := true } } (i + 1)
    else if a = 23 then
      sgrGo args fuel { s with attr := { s.attr with italic := false } } (i + 1)
    else if a = 4 then
      sgrGo args fuel { s with attr := { s.attr with underline := true } } (i + 1)
    else if a = 21 then
      sgrGo args fuel { s with attr := { s.attr with underline := true, doubleUnderline := true } }
        (i + 1)
    else if a = 24 then
      sgrGo args fuel { s with attr := { s.attr with underline := false, doubleUnderline := false } }
        (i + 1)
    else if a = 5 then
      sgrGo args fuel { s with attr := { s.attr with blink := true } } (i + 1)
    else if a = 25 then
      sgrGo args fuel { s with attr := { s.attr with blink := false } } (i + 1)
    else if a = 7 then
      sgrGo args fuel { s with attr := { s.attr with reversed := true } } (i + 1)
    else if a = 27 then
      sgrGo args fuel { s with attr := { s.attr with reversed := false } } (i + 1)
    else if a = 8 then
      sgrGo args fuel { s with attr := { s.attr with conceal := true } } (i + 1)
    else if a = 28 then
      sgrGo args fuel { s with attr := { s.attr with conceal := false } } (i + 1)
    else if a = 9 then
      sgrGo args fuel { s with attr := { s.attr with strike := true } } (i + 1)
    else if a = 29 then
      sgrGo args fuel { s with attr := { s.attr with strike := false } } (i + 1)
    else if 30 ≤ a ∧ a ≤ 37 then
      let c := if s.boldColors ∧ s.attr.bold then paletteANSIget ((a - 30).toNat + 8)
               else paletteANSIget (a - 30).toNat
      sgrGo args fuel { s with attr := { s.attr with fg := c } } (i + 1)
    else if a = 39 then
      sgrGo args fuel { s with attr := { s.attr with fg := s.attrDefault.fg } } (i + 1)
    else if 40 ≤ a ∧ a ≤ 47 then
      sgrGo args fuel { s with attr := { s.attr with bg := paletteANSIget (a - 40).toNat } }
        (i + 1)
    else if a = 49 then
      sgrGo args fuel { s with attr := { s.attr with bg := s.attrDefault.bg } } (i + 1)
    else if 90 ≤ a ∧ a ≤ 97 then
      sgrGo args fuel { s with attr := { s.attr with fg := paletteANSIget ((a - 90).toNat + 8) } }
        (i + 1)
    else if 100 ≤ a ∧ a ≤ 107 then
      sgrGo args fuel { s with attr := { s.attr with bg := paletteANSIget ((a - 100).toNat + 8) } }
        (i + 1)
    else if a = 38 ∨ a = 48 then
      if i + 1 ≥ args.length then sgrGo args fuel s (i + 1)
      else if args.getD (i + 1) 0 = 5 then
        -- Go: args[i] = args[i] % 256, then Palette256[args[i+2]]
        let aMod := Int.tmod a 256
        if i + 2 ≥ args.length then none
        else
          let n := args.getD (i + 2) 0
          if 0 ≤ n ∧ n < 256 then
            if aMod = 38 then
              sgrGo args fuel { s with attr := { s.attr with fg := palette256get n.toNat } }
                (i + 3)
            else
              sgrGo args fuel { s with attr := { s.attr with bg := palette256get n.toNat } }
                (i + 3)
          else none
      else if args.getD (i + 1) 0 ≠ 2 then sgrGo args fuel s (i + 1)
      else
        let rgb := getRGB (args.drop (i + 2))
        let c : Color := ⟨rgb.1.toNat, rgb.2.1.toNat, rgb.2.2.toNat⟩
        if a = 38 then
          sgrGo args fuel { s with attr := { s.attr with fg := c } } (i + 5)
        else
          sgrGo args fuel { s with attr := { s.attr with bg := c } } (i + 5)
    else sgrGo args fuel s (i + 1)
  else some s

/-- The SGR loop entry point: the loop runs at most `args.length` iterations
(the index strictly increases each round), so `args.length` fuel always
suffices, and once `i ≥ args.length` the loop exits with the current state
regardless of fuel. -/
def sgrLoop (s : TermState) (args : List Int) : Option TermState :=
  sgrGo args args.length s 0

/-- `handleCSISequence` from `escCSI.go` (current revision).  Operations
that only touch pixels (`@`, `J`, `K`, `L`, `M`, `P`, `S`, `T`, `X`, the
alt-screen snapshot of `?47`/`?1049`) leave the tracked state unchanged,
exactly as the Go code leaves the cursor, attributes and configuration
unchanged there (`L`/`M` save and restore the scroll region around their
transient region). -/
def handleCSISequence (s : TermState) (seq : List Char) : Option TermState :=
  if seq.length = 0 then some s
  else
    let body := seq.take (seq.length - 1)
    let args := getNumericArgs body 1
    match seq.getLast?.getD '\x00' with
    | 'A' => some (cursorMoveRel s 0 (-(args.getD 0 1)))
    | 'B' => some (cursorMoveRel s 0 (args.getD 0 1))
    | 'C' => some (cursorMoveRel s (args.getD 0 1) 0)
    | 'D' => some (cursorMoveRel s (-(args.getD 0 1)) 0)
    | 'E' => some (cursorMoveRel s (-s.cols) (args.getD 0 1))
    | 'F' => some (cursorMoveRel s (-s.cols) (-(args.getD 0 1)))
    | 'G' => some (cursorMoveAbs s (args.getD 0 1 - 1) s.row)
    | 'H' | 'f' =>
      let nm : Int × Int :=
        match args with
        | [a] => (a, 1)
        | [a, b] => (a, b)
        | _ => (1, 1)
      some (cursorMoveAbs s (nm.2 - 1) (nm.1 - 1))
    | 'c' => some { s with output := s.output ++ "\x1b[?1;2c" }
    | 'd' =>
      let argsd := getNumericArgs body 1
      some { s with row := bound (argsd.getD 0 1 - 1) 0 s.rows }
    | 'm' => sgrLoop s (getNumericArgs body 0)
    | 'n' =>
      if args.getD 0 1 = 5 then some { s with output := s.output ++ "\x1b[0n" }
      else if args.getD 0 1 = 6 then
        let rep := "\x1b[" ++ toString (bound (s.row + 1) 1 s.rows) ++ ";" ++
          toString (bound (s.col + 1) 1 s.cols) ++ "R"
        some { s with output := s.output ++ rep }
      else some s
    | 'l' | 'h' =>
      if seq.getD 0 '\x00' ≠ '?' ∨ seq.length < 2 then some s
      else
        let pargs := getNumericArgs ((seq.drop 1).take (seq.length - 2)) 0
        let doSet := seq.getLast?.getD '\x00' = 'h'
        let p0 := pargs.getD 0 0
        if p0 = 0 ∨ p0 = 1 then some { s with cursorKeyAppMode := doSet }
        else if p0 = 7 then some { s with wraparound := !doSet }
        else if p0 = 25 then
          if doSet then some { s with cursorShow := true }
          else some { s with cursorShow := false, cursorVisible := false }
        else some s
    | 'r' =>
      if args.length ≠ 2 then some s
      else some (setScrollRegion s (args.getD 0 1) (args.getD 1 1))
    | 's' => some { s with prevCol := s.col, prevRow := s.row }
    | 'u' => some { s with col := s.prevCol, row := s.prevRow }
    | 't' =>
      if args.getD 0 1 = 18 then
        let rep := "\x1b[8;" ++ toString s.rows ++ ":" ++ toString s.cols ++ "t"
        some { s with output := s.output ++ rep }
      else if args.getD 0 1 = 19 then
        let rep := "\x1b[9;" ++ toString (s.rows * 16) ++ ";" ++
          toString (s.cols * 8) ++ "t"
        some { s with output := s.output ++ rep }
      else some s
    | _ => some s

/-- `handleOSCSequence` (`escOSC.go`): its only state effects are the
`Properties` map (window title) and logging, neither of which is tracked,
so it is the identity on the tracked state. -/
def handleOSCSequence (s : TermState) (_seq : List Char) : TermState := s

/-- `HandleEscSequence` from `ansi.go` (current revision).  `ESC M` scrolls
pixels when the cursor is at row 0 and otherwise decrements the row;
`ESC c` is `Reset`; `ESC (` / `ESC )` designate G0/G1 (`0` selects the
alternate set, anything else the regular set); the private `ESC /` family
(`escFansi.go`) performs pixel graphics, replies and tile installation,
none of which is tracked here.  Every dispatch ends with `updateAttr`,
which only recomputes the derived active rendering fields. -/
def handleEscSequence (s : TermState) (seq : List Char) : Option TermState :=
  match seq.getD 1 '\x00' with
  | '7' => some { s with prevCol := s.col, prevRow := s.row }
  | '8' => some { s with col := s.prevCol, row := s.prevRow }
  | 'c' => some (deviceReset s)
  | '[' => handleCSISequence s (seq.drop 2)
  | ']' => some (handleOSCSequence s (seq.drop 2))
  | 'M' => some (if s.row = 0 then s else { s with row := s.row - 1 })
  | '(' =>
    some (if seq.getD 2 '\x00' = '0' then { s with g0alt := true }
          else { s with g0alt := false })
  | ')' =>
    some (if seq.getD 2 '\x00' = '0' then { s with g1alt := true }
          else { s with g1alt := false })
  | _ => some s

/-- The `default` (printable) arm of the `Write` loop (`vterm.go`, current
revision): wrap handling when `col == cols` (scrolling pixels when the
cursor sits on the scroll-region bottom, otherwise advancing the row),
then `RenderRune` at the cursor cell (recorded in the trace), then the
column advances by the rune's width, clamped to `[0, cols−1]` when the
`Wraparound` configuration flag is set. -/
def printStep (s : TermState) (r : Char) : TermState :=
  let s :=
    if s.col = s.cols then
      let s := { s with col := 0 }
      if s.row = s.scrollBottom then s
      else if s.row < s.rows - 1 then { s with row := s.row + 1 }
      else s
    else s
  let s := { s with trace := s.trace ++ [(s.col, s.row, renderedRune s r)],
                    col := s.col + goRuneWidth r }
  if s.wraparound then { s with col := bound s.col 0 (s.cols - 1) } else s

/-- The byte loop of `(*Device).Write` (`vterm.go`, current revision) over
the decoded runes.  `BEL` with a nil `BellFunc` is a no-op; `LF` falls
through to the `VT`/`FF` vertical motion; an incomplete escape buffers the
tail in `inputBuf` and ends the loop; a complete escape is dispatched and
skipped.  `none` models the Go runtime fault when the framer returns a
length past the end of the rune slice (`runes[i : i+n]`), or a fault inside
the dispatcher. -/
def writeGo : Nat → TermState → List Char → Option TermState
  | 0, s, _ => some s
  | fuel + 1, s, data =>
    match data with
    | [] => some s
    | r :: rest =>
      if r = '\x07' then writeGo fuel s rest
      else if r = '\x08' then writeGo fuel { s with col := max (s.col - 1) 0 } rest
      else if r = '\x09' then
        writeGo fuel
          { s with col := min (s.cols - 1) (s.col + s.tabSize - Int.tmod s.col s.tabSize) }
          rest
      else if r = '\x0D' then writeGo fuel { s with col := 0 } rest
      else if r = '\x0A' ∨ r = '\x0B' ∨ r = '\x0C' then
        let s := if r = '\x0A' then { s with col := 0 } else s
        if s.row = s.scrollBottom then writeGo fuel s rest
        else if s.row < s.rows - 1 then writeGo fuel { s with row := s.row + 1 } rest
        else writeGo fuel s rest
      else if r = '\x0E' then writeGo fuel { s with shift := 1 } rest
      else if r = '\x0F' then writeGo fuel { s with shift := 0 } rest
      else if r = '\x1b' then
        match consumeEscSequence (r :: rest) with
        | none => some { s with inputBuf := r :: rest }
        | some n =>
          if n ≤ rest.length + 1 then
            match handleEscSequence s ((r :: rest).take n) with
            | none => none
            | some s₁ => writeGo fuel s₁ (rest.drop (n - 1))
          else none
      else writeGo fuel (printStep s r) rest

/-- The byte-loop entry point: every iteration consumes at least one rune,
so `data.length` fuel always covers the loop, and with the fuel exhausted
the remaining runes are necessarily empty, matching the loop's exit. -/
def writeLoop (s : TermState) (data : List Char) : Option TermState :=
  writeGo data.length s data

/-- `(*Device).Write` (`vterm.go`, current revision): any buffered partial
escape is prepended, the cursor is un-painted for the duration and
re-painted when `show` is set, and the return value is always
`(len(data), nil)` on every path that returns.  The input is taken as the
decoded rune list; for the ASCII-range inputs exercised here its length
equals the byte length `len(data)` that Go returns.  `none` models a run
that faults instead of returning. -/
def fansiWrite (s : TermState) (data : List Char) :
    Option (TermState × Nat × Option String) :=
  let runes := s.inputBuf ++ data
  let s := { s with inputBuf := [], cursorVisible := false }
  match writeLoop s runes with
  | none => none
  | some s₁ =>
    some ({ s₁ with cursorVisible := s₁.cursorVisible || s₁.cursorShow },
          data.length, none)

/-- A pixel coordinate (x, y). -/
abbrev Pt := Int × Int

/-- One `img.Set(dst, img.At(src))` iteration of `softVectorScroll`
(`rgb.go`): in-place pointwise update of the pixel function. -/
def setPix (img : Pt → Color) (dst src : Pt) : Pt → Color :=
  fun p => if p = dst then img src else img p

/-- The inner x-loop of `softVectorScroll` (`rgb.go`, current revision) for
one row of a vertical scroll (`vector.X = 0`, so `dst.X = Min.X + x` and
`src.X = Min.X + (dst.X − Min.X) mod w`): after `k` steps the columns
`x0 … x0+k−1` of row `dstY` have been rewritten from row `srcY` of the
evolving image. -/
def svsRow (x0 : Int) (w : Nat) (dstY srcY : Int) (img : Pt → Color) :
    Nat → (Pt → Color)
  | 0 => img
  | k + 1 =>
    setPix (svsRow x0 w dstY srcY img k) (x0 + k, dstY) (x0 + (k : Int) % (w : Int), srcY)

/-- The outer y-loop of `softVectorScroll` (`rgb.go`, current revision) for
vector `(0, vy)` on region `[x0, x0+w) × [y0, y0+h)`: iteration `y` writes
destination row `Min.Y + y` when `vy ≥ 0` and `Max.Y − (y+1)` when
`vy < 0`; the source row is `Min.Y + (dstY + vy − Min.Y) mod h`
(`image.Point.Mod` is the Euclidean remainder into the region). -/
def svsVert (x0 y0 : Int) (w h : Nat) (vy : Int) (img : Pt → Color) :
    Nat → (Pt → Color)
  | 0 => img
  | k + 1 =>
    let dstY : Int := if 0 ≤ vy then y0 + k else y0 + h - (k + 1)
    let srcY : Int := y0 + (dstY + vy - y0) % (h : Int)
    svsRow x0 w dstY srcY (svsVert x0 y0 w h vy img k) w

/-- `softVectorScroll` (`rgb.go`) for a vertical vector `(0, vy)` — the only
shape the scroll path uses, via `softRegionScroll` / the `regionScroll`
fallback — on region `[x0, x0+w) × [y0, y0+h)`, assumed inside the image
bounds (so the `Bounds().Intersect` at entry is the identity, as holds for
the scroll area of a constructed device). -/
def softVectorScrollVert (img : Pt → Color) (x0 y0 : Int) (w h : Nat)
    (vy : Int) : Pt → Color :=
  svsVert x0 y0 w h vy img h

/-- `Clear` (`rgb.go`) / `Render.Fill`: overwrite the pixel rectangle
`[x0, x0+w) × [yLo, yHi)` with a color. -/
def fillRect (img : Pt → Color) (x0 : Int) (w : Nat) (yLo yHi : Int)
    (c : Color) : Pt → Color :=
  fun p => if x0 ≤ p.1 ∧ p.1 < x0 + w ∧ yLo ≤ p.2 ∧ p.2 < yHi then c else img p

/-- `(*Device).Scroll(N)`, `N > 0` (`color_ansi.go`, current revision), in
the software path with a scroll region `[top, bot]` (cells, 8×16 pixels
each): region-scroll by `N·16` pixels, then
`Clear(0, bot−N+1, cols, bot+1)` fills the newly exposed bottom band with
the background. -/
def scrollRegionUp (img : Pt → Color) (cols top bot N : Nat) (bg : Color) :
    Pt → Color :=
  fillRect
    (softVectorScrollVert img 0 ((top : Int) * 16) (cols * 8)
      ((bot + 1 - top) * 16) ((N * 16 : Nat) : Int))
    0 (cols * 8) (((bot : Int) - N + 1) * 16) (((bot : Int) + 1) * 16) bg

/-- `(*Device).Scroll(−N)`, `N > 0`: region-scroll by `−N·16` pixels, then
`Clear(0, top, cols, top+N)` fills the newly exposed top band. -/
def scrollRegionDown (img : Pt → Color) (cols top bot N : Nat) (bg : Color) :
    Pt → Color :=
  fillRect
    (softVectorScrollVert img 0 ((top : Int) * 16) (cols * 8)
      ((bot + 1 - top) * 16) (-((N * 16 : Nat) : Int)))
    0 (cols * 8) ((top : Int) * 16) (((top : Int) + N) * 16) bg

/-- C1: the cursor-bounds invariant fails on the code.  `CSI n d` clamps the
row with `bound(args[0]−1, 0, d.rows)` (`escCSI.go`) — upper limit `rows`
instead of `rows−1` — so on an 8×4 device the input `ESC[9d` leaves
`row = 4 = rows`, violating `0 ≤ row < rows`; every other motion clamps to
`rows−1` via `Cursor.MoveRel`/`MoveAbs`, which is the documented intent. -/
theorem c1_csi_d_breaks_row_bound :
    ((fansiWrite (initState 8 4) ("\x1b[9d".toList)).map (fun o => o.1.row)) =
      some 4 ∧
    (initState 8 4).rows = 4 ∧ ¬((4 : Int) < (initState 8 4).rows) := by decide

/-- C3: the CSI dispatcher does fault on well-framed input.  `SGR 38;5`
(palette index missing) reads `args[i+2]` past the end of the argument
slice, and `SGR 38;5;256` indexes the 256-entry `Palette256` array out of
range — the code reduces `args[i]` (the 38/48 selector) modulo 256 instead
of the index — so both runs fault (`none`) instead of being absorbed;
`38;5;255` is in range and sets the foreground from the palette. -/
theorem c3_sgr_extended_color_faults :
    handleCSISequence (initState 8 4) ("38;5m".toList) = none ∧
    handleCSISequence (initState 8 4) ("38;5;256m".toList) = none ∧
    ((handleCSISequence (initState 8 4) ("38;5;255m".toList)).map
      (fun s => s.attr.fg)) = some (palette256get 255) := by decide

/-- C4: the `ESC ] R` special case of the framer returns `n + 2 = 4` for
the 3-rune query, so it consumes one rune too many, and when the input
ends right after the `R` the `Write` loop slices `runes[i : i+4]` out of a
3-rune slice and faults instead of dispatching exactly `ESC ] R`. -/
theorem c4_escR_framer_overconsumes :
    consumeEscSequence ['\x1b', ']', 'R'] = some 4 ∧
    (['\x1b', ']', 'R'] : List Char).length = 3 ∧
    fansiWrite (initState 8 4) ['\x1b', ']', 'R'] = none := by decide

/-- C6: on an 80×24 device `CSI 18 t` emits `ESC[8;24:80t` — the format
string `"\x1b[8;%d:%dt"` in `escCSI.go` separates rows and cols with a
colon, not the semicolon the spec and the xterm reply format require —
while `CSI 19 t` emits `ESC[9;384;640t` with semicolons as claimed. -/
theorem c6_size_report_colon :
    ((fansiWrite (initState 80 24) ("\x1b[18t\x1b[19t".toList)).map
      (fun o => o.1.output)) = some "\x1b[8;24:80t\x1b[9;384;640t" ∧
    ("\x1b[8;24:80t" : String) ≠ "\x1b[8;24;80t" := by decide

/-- C9: processing SO, space, `q`, SI from the initial state renders the
space through the alternate set unchanged at cell (0,0) and renders `q` at
cell (1,0) as U+2500 (the `altToUnicode` remap of the G1 alternate set),
not as ASCII `q`; SI then restores `shift = 0`, and the write reports all
four runes consumed with no error. -/
theorem c9_shift_out_box_drawing :
    ((fansiWrite (initState 80 24) ['\x0E', ' ', 'q', '\x0F']).map
      (fun o => (o.1.trace, o.1.shift, o.2.1, o.2.2))) =
      some ([(0, 0, ' '), (1, 0, Char.ofNat 0x2500)], 0, 4, none) ∧
    Char.ofNat 0x2500 ≠ 'q' := by decide

/-- C5 counterexample: after `ESC ( 0` binds G0 to the alternate set,
`SGR 0` restores the attribute to `attrDefault` but leaves G0 bound to the
alternate set (`g0alt = true`), whereas the default binding set by `Reset`
is the regular set (`g0alt = false`): SGR 0 does not restore the G0/G1
bindings. -/
theorem c5_counterexample_sgr0_keeps_g0 :
    (((handleEscSequence (initState 8 4) ("\x1b(0".toList)).bind
        (fun s => handleEscSequence s ("\x1b[0m".toList))).map
      (fun s => (s.g0alt, s.attr == s.attrDefault))) = some (true, true) ∧
    (initState 8 4).g0alt = false := by decide

/-- C5 amended: `ESC c` (`Reset`) restores the attribute to exactly
`attrDefault` and restores the default G0/G1 bindings (G0 regular, G1
alternate), and is idempotent; `SGR 0` restores the attribute to exactly
`attrDefault` but leaves the G0/G1 bindings unchanged, and is idempotent. -/
theorem c5_amended (s : TermState) :
    (∃ s₁, handleEscSequence s ['\x1b', 'c'] = some s₁ ∧
      s₁.attr = s.attrDefault ∧ s₁.g0alt = false ∧ s₁.g1alt = true ∧
      handleEscSequence s₁ ['\x1b', 'c'] = some s₁) ∧
    (∃ s₂, handleEscSequence s ['\x1b', '[', '0', 'm'] = some s₂ ∧
      s₂.attr = s.attrDefault ∧ s₂.g0alt = s.g0alt ∧ s₂.g1alt = s.g1alt ∧
      handleEscSequence s₂ ['\x1b', '[', '0', 'm'] = some s₂) := by
  exact ⟨⟨deviceReset s, rfl, rfl, rfl, rfl, rfl⟩,
         ⟨{ s with attr := s.attrDefault }, rfl, rfl, rfl, rfl, rfl⟩⟩

/-- Stepping the write loop over the printable rune `A`. -/
theorem writeGo_cons_A (fuel : Nat) (s : TermState) (rest : List Char) :
    writeGo (fuel + 1) s ('A' :: rest) = writeGo fuel (printStep s 'A') rest := rfl

/-- `printStep` on `A` when no wrap is pending and the wraparound clamp is
off: the column advances by one and nothing else the wrap argument needs
changes. -/
theorem printStep_A_en_proj (s : TermState) (h1 : ¬ s.col = s.cols)
    (h2 : s.wraparound = false) :
    (printStep s 'A').col = s.col + 1 ∧ (printStep s 'A').row = s.row ∧
    (printStep s 'A').cols = s.cols ∧ (printStep s 'A').rows = s.rows ∧
    (printStep s 'A').scrollBottom = s.scrollBottom ∧
    (printStep s 'A').wraparound = false := by
  simp [printStep, h1, h2, goRuneWidth]

/-- `printStep` on `A` when no wrap is pending and the wraparound clamp is
on: the column advances and saturates at `cols − 1`. -/
theorem printStep_A_dis_proj (s : TermState) (h1 : ¬ s.col = s.cols)
    (h2 : s.wraparound = true) :
    (printStep s 'A').col = bound (s.col + 1) 0 (s.cols - 1) ∧
    (printStep s 'A').row = s.row ∧ (printStep s 'A').cols = s.cols ∧
    (printStep s 'A').wraparound = true := by
  simp [printStep, h1, h2, goRuneWidth]

/-- `printStep` on `A` in the pending-wrap state (`col = cols`) with the
cursor off the scroll-region bottom and above the last row: the glyph lands
at column 0 of the next row and the cursor ends at `(1, row+1)`. -/
theorem printStep_A_wrap_proj (s : TermState) (h1 : s.col = s.cols)
    (h2 : ¬ s.row = s.scrollBottom) (h3 : s.row < s.rows - 1)
    (h4 : s.wraparound = false) :
    (printStep s 'A').col = 1 ∧ (printStep s 'A').row = s.row + 1 := by
  simp [printStep, h1, h2, h3, h4, goRuneWidth]

/-- Writing `k` copies of `A` with the wraparound clamp off and room for
all of them on the current line advances the column by `k` and changes no
other field the wrap claims observe. -/
theorem writeGo_repA_enabled : ∀ (k fuel : Nat) (s : TermState) (rest : List Char),
    s.wraparound = false → s.col + k ≤ s.cols →
    ∃ s₁, writeGo (k + fuel) s (List.replicate k 'A' ++ rest) = writeGo fuel s₁ rest ∧
      s₁.col = s.col + k ∧ s₁.row = s.row ∧ s₁.cols = s.cols ∧ s₁.rows = s.rows ∧
      s₁.scrollBottom = s.scrollBottom ∧ s₁.wraparound = false := by
  intro k
  induction k with
  | zero =>
    intro fuel s rest h1 _
    exact ⟨s, by simp, by simp, rfl, rfl, rfl, rfl, h1⟩
  | succ k ih =>
    intro fuel s rest h1 h2
    have hne : ¬ s.col = s.cols := by
      intro h
      rw [h] at h2
      omega
    have hstep : writeGo (k + 1 + fuel) s (List.replicate (k + 1) 'A' ++ rest) =
        writeGo (k + fuel) (printStep s 'A') (List.replicate k 'A' ++ rest) := by
      have harith : k + 1 + fuel = (k + fuel) + 1 := by omega
      rw [harith, List.replicate_succ]
      rfl
    obtain ⟨p1, p2, p3, p4, p5, p6⟩ := printStep_A_en_proj s hne h1
    obtain ⟨s₁, he, hc, hr, hcols, hrows, hsb, hw⟩ :=
      ih fuel (printStep s 'A') rest p6 (by rw [p1, p3]; push_cast at h2 ⊢; omega)
    refine ⟨s₁, by rw [hstep]; exact he, ?_, ?_, ?_, ?_, ?_, hw⟩
    · rw [hc, p1]
      push_cast
      omega
    · rw [hr, p2]
    · rw [hcols, p3]
    · rw [hrows, p4]
    · rw [hsb, p5]

/-- Writing `k` copies of `A` with the wraparound clamp on, starting inside
the line: the column saturates at `cols − 1` and the row never changes. -/
theorem writeGo_repA_disabled : ∀ (k : Nat) (s : TermState),
    s.wraparound = true → 0 ≤ s.col → s.col ≤ s.cols - 1 →
    ∃ s₁, writeGo k s (List.replicate k 'A') = some s₁ ∧
      s₁.col = min (s.col + k) (s.cols - 1) ∧ s₁.row = s.row ∧ s₁.cols = s.cols := by
  intro k
  induction k with
  | zero =>
    intro s h1 h2 h3
    refine ⟨s, by simp [writeGo], ?_, rfl, rfl⟩
    simp only [Nat.cast_zero, add_zero]
    rw [min_eq_left h3]
  | succ k ih =>
    intro s h1 h2 h3
    have hne : ¬ s.col = s.cols := by omega
    have hstep : writeGo (k + 1) s (List.replicate (k + 1) 'A') =
        writeGo k (printStep s 'A') (List.replicate k 'A') := by
      rw [List.replicate_succ]
      rfl
    obtain ⟨p1, p2, p3, p4⟩ := printStep_A_dis_proj s hne h1
    have hb : (printStep s 'A').col = min (s.col + 1) (s.cols - 1) := by
      rw [p1]
      simp only [bound, min_def, max_def]
      split_ifs <;> omega
    obtain ⟨s₁, he, hc, hr, hcols⟩ := ih (printStep s 'A') p4
      (by rw [hb]; simp only [min_def]; split_ifs <;> omega)
      (by rw [hb, p3]; simp only [min_def]; split_ifs <;> omega)
    refine ⟨s₁, by rw [hstep]; exact he, ?_, by rw [hr, p2], by rw [hcols, p3]⟩
    rw [hc, hb, p3]
    simp only [min_def]
    push_cast
    split_ifs <;> omega

/-- C2 amended: writing exactly `cols` printable characters from
`(col=0, row=0)`: with wraparound in effect (the state after `ESC[?7h`,
which stores `Config.Wraparound = false` — the field's polarity is the
inverse of its name), the cursor is left in the transient past-end state
`(col=cols, row=0)`, and the wrap completes only when the next printable
arrives — after `cols+1` characters the cursor is at `(1, 1)`; with
wraparound off (`ESC[?7l`, `Config.Wraparound = true`) the cursor saturates
at `(cols−1, 0)` as the claim states for the disabled case. -/
theorem c2_amended (s : TermState) (c : Nat)
    (hcols : s.cols = c) (hc : 1 ≤ c) (hcol : s.col = 0) (hrow : s.row = 0)
    (hsb : s.scrollBottom = s.rows - 1) (hrows : 2 ≤ s.rows) :
    (s.wraparound = false →
      ∃ s₁, writeLoop s (List.replicate c 'A') = some s₁ ∧
        s₁.col = s.cols ∧ s₁.row = 0) ∧
    (s.wraparound = false →
      ∃ s₂, writeLoop s (List.replicate (c + 1) 'A') = some s₂ ∧
        s₂.col = 1 ∧ s₂.row = 1) ∧
    (s.wraparound = true →
      ∃ s₃, writeLoop s (List.replicate c 'A') = some s₃ ∧
        s₃.col = s.cols - 1 ∧ s₃.row = 0) := by
  refine ⟨?_, ?_, ?_⟩
  · intro hwr
    obtain ⟨s₁, he, hcol1, hrow1, hcols1, _, _, _⟩ :=
      writeGo_repA_enabled c 0 s [] hwr (by rw [hcol, hcols]; omega)
    refine ⟨s₁, ?_, by rw [hcol1, hcol, hcols]; ring, by rw [hrow1, hrow]⟩
    rw [writeLoop, List.length_replicate]
    simpa using he
  · intro hwr
    obtain ⟨s₁, he, hcol1, hrow1, hcols1, hrows1, hsb1, hwr1⟩ :=
      writeGo_repA_enabled c 1 s ['A'] hwr (by rw [hcol, hcols]; omega)
    have hwrap : writeGo 1 s₁ ['A'] = some (printStep s₁ 'A') := rfl
    obtain ⟨q1, q2⟩ := printStep_A_wrap_proj s₁
      (by rw [hcol1, hcols1, hcol, hcols]; ring)
      (by rw [hrow1, hrow, hsb1, hsb]; omega)
      (by rw [hrow1, hrow, hrows1]; omega) hwr1
    refine ⟨printStep s₁ 'A', ?_, q1, by rw [q2, hrow1, hrow]; ring⟩
    rw [writeLoop, List.length_replicate, List.replicate_succ']
    calc writeGo (c + 1) s (List.replicate c 'A' ++ ['A'])
        = writeGo 1 s₁ ['A'] := he
      _ = some (printStep s₁ 'A') := hwrap
  · intro hwr
    obtain ⟨s₁, he, hcol1, hrow1, hcols1⟩ :=
      writeGo_repA_disabled c s hwr (by rw [hcol]) (by rw [hcol, hcols]; omega)
    refine ⟨s₁, ?_, ?_, by rw [hrow1, hrow]⟩
    · rw [writeLoop, List.length_replicate]
      exact he
    · rw [hcol1, hcol, hcols]
      simp only [min_def]
      split_ifs <;> omega

/-- C2 witness: the amended statement instantiated on a fresh 3×4 device. -/
theorem c2_amended_witness :
    (initState 3 4).cols = 3 ∧ 1 ≤ 3 ∧ (initState 3 4).col = 0 ∧
    (initState 3 4).row = 0 ∧
    (initState 3 4).scrollBottom = (initState 3 4).rows - 1 ∧
    2 ≤ (initState 3 4).rows ∧
    (((initState 3 4).wraparound = false →
      ∃ s₁, writeLoop (initState 3 4) (List.replicate 3 'A') = some s₁ ∧
        s₁.col = (initState 3 4).cols ∧ s₁.row = 0) ∧
    ((initState 3 4).wraparound = false →
      ∃ s₂, writeLoop (initState 3 4) (List.replicate (3 + 1) 'A') = some s₂ ∧
        s₂.col = 1 ∧ s₂.row = 1) ∧
    ((initState 3 4).wraparound = true →
      ∃ s₃, writeLoop (initState 3 4) (List.replicate 3 'A') = some s₃ ∧
        s₃.col = (initState 3 4).cols - 1 ∧ s₃.row = 0)) :=
  ⟨by decide, by decide, by decide, by decide, by decide, by decide,
   c2_amended (initState 3 4) 3 (by decide) (by decide) (by decide) (by decide)
     (by decide) (by decide)⟩

/-- C2 counterexample: on a 3-column device, enabling wraparound with
`ESC[?7h` (which stores `Config.Wraparound = false` — the flag's polarity
is inverted) and writing 3 printables leaves the cursor at `(col=3, row=0)`
— the past-end pending-wrap state — not at `(0, 1)` as claimed; with
`ESC[?7l` (`Config.Wraparound = true`) the cursor saturates at
`(cols−1, 0) = (2, 0)`, which is the claimed disabled behavior. -/
theorem c2_counterexample_wrap_pending :
    ((fansiWrite (initState 3 4) ("\x1b[?7hABC".toList)).map
      (fun o => (o.1.wraparound, o.1.col, o.1.row))) = some (false, 3, 0) ∧
    ((fansiWrite (initState 3 4) ("\x1b[?7lABC".toList)).map
      (fun o => (o.1.wraparound, o.1.col, o.1.row))) = some (true, 2, 0) ∧
    ¬((3 : Int) = 0 ∧ (0 : Int) = 1) := by decide

/-- C7: processing HT (0x09) through `Write` sets the column to
`min(cols−1, col + tabSize − (col mod tabSize))` (the current revision's
clamp uses `cols−1`), never changes the row, and the write reports one rune
consumed with no error; moreover the unclamped target is a multiple of
`tabSize`, strictly greater than `col`, and at most `col + tabSize` — the
next tab stop. -/
theorem c7_tab_stop (s : TermState) (ht : 0 < s.tabSize) (hc : 0 ≤ s.col)
    (hbuf : s.inputBuf = []) :
    ((fansiWrite s ['\x09']).map (fun o => (o.1.col, o.1.row, o.2.1, o.2.2))) =
      some (min (s.cols - 1) (s.col + s.tabSize - Int.tmod s.col s.tabSize),
            s.row, 1, none) ∧
    s.tabSize ∣ (s.col + s.tabSize - Int.tmod s.col s.tabSize) ∧
    s.col < s.col + s.tabSize - Int.tmod s.col s.tabSize ∧
    s.col + s.tabSize - Int.tmod s.col s.tabSize ≤ s.col + s.tabSize := by
  refine ⟨?_, ?_, ?_, ?_⟩
  · simp [fansiWrite, hbuf, writeLoop, writeGo]
  · refine ⟨s.col.tdiv s.tabSize + 1, ?_⟩
    have h := Int.tdiv_add_tmod s.col s.tabSize
    linarith [h]
  · have h := Int.tmod_lt_of_pos s.col ht
    omega
  · have h := Int.tmod_nonneg s.tabSize hc
    omega

/-- C7 witness: the tab property on a fresh 8×4 device (tab size 8). -/
theorem c7_tab_stop_witness :
    (0 : Int) < (initState 8 4).tabSize ∧
    (((fansiWrite (initState 8 4) ['\x09']).map
        (fun o => (o.1.col, o.1.row, o.2.1, o.2.2))) =
      some (min ((initState 8 4).cols - 1)
              ((initState 8 4).col + (initState 8 4).tabSize -
                Int.tmod (initState 8 4).col (initState 8 4).tabSize),
            (initState 8 4).row, 1, none) ∧
    (initState 8 4).tabSize ∣ ((initState 8 4).col + (initState 8 4).tabSize -
      Int.tmod (initState 8 4).col (initState 8 4).tabSize) ∧
    (initState 8 4).col < (initState 8 4).col + (initState 8 4).tabSize -
      Int.tmod (initState 8 4).col (initState 8 4).tabSize ∧
    (initState 8 4).col + (initState 8 4).tabSize -
      Int.tmod (initState 8 4).col (initState 8 4).tabSize ≤
      (initState 8 4).col + (initState 8 4).tabSize) :=
  ⟨by decide,
   c7_tab_stop (initState 8 4) (by decide) (by decide) (by decide)⟩

/-- C10 counterexample: `Write` does not return `(len(data), nil)` for
every input — on `ESC[38;5m` the SGR handler faults (out-of-range slice
index), so the call never returns at all. -/
theorem c10_counterexample_write_faults :
    fansiWrite (initState 8 4) ("\x1b[38;5m".toList) = none := by decide

/-- C10 amended: on every execution of `Write` that returns — in
particular whenever the input merely ends in an incomplete escape sequence,
whose bytes are buffered — the returned pair is exactly
`(len(data), nil)`: never an error and never a short write. -/
theorem c10_amended_write_returns_len (s : TermState) (data : List Char)
    (out : TermState × Nat × Option String)
    (h : fansiWrite s data = some out) :
    out.2.1 = data.length ∧ out.2.2 = none := by
  simp only [fansiWrite] at h
  split at h
  · exact Option.noConfusion h
  · obtain rfl := Option.some.inj h
    exact ⟨rfl, rfl⟩

/-- C10 witness: a concrete returning run — input ending in an incomplete
escape — reported via the amended theorem. -/
theorem c10_amended_witness :
    ∃ out, fansiWrite (initState 8 4) ['A', '\x1b'] = some out ∧
      out.2.1 = 2 ∧ out.2.2 = none := by
  have h : (fansiWrite (initState 8 4) ['A', '\x1b']).isSome = true := by decide
  obtain ⟨out, hout⟩ := Option.isSome_iff_exists.mp h
  obtain ⟨h1, h2⟩ := c10_amended_write_returns_len _ _ _ hout
  exact ⟨out, hout, h1, h2⟩

/-- After `k ≤ w` steps of the row loop, columns `x0 … x0+k−1` of row
`dstY` hold the pre-row values of row `srcY` and no other pixel changed:
each cell's source is its own column, not yet overwritten in this row. -/
theorem svsRow_apply (x0 : Int) (w : Nat) (dstY srcY : Int) (img : Pt → Color) :
    ∀ k, k ≤ w → ∀ p : Pt,
      svsRow x0 w dstY srcY img k p =
        if p.2 = dstY ∧ x0 ≤ p.1 ∧ p.1 < x0 + (k : Int) then img (p.1, srcY)
        else img p := by
  intro k
  induction k with
  | zero =>
    intro _ p
    rw [if_neg]
    · rfl
    · rintro ⟨_, h1, h2⟩
      simp only [Nat.cast_zero, add_zero] at h2
      omega
  | succ k ih =>
    intro hk p
    have hkw : (k : Int) % (w : Int) = (k : Int) :=
      Int.emod_eq_of_lt (Int.natCast_nonneg k) (by exact_mod_cast hk)
    simp only [svsRow, setPix, hkw]
    by_cases hp : p = ((x0 + (k : Int), dstY) : Pt)
    · rw [if_pos hp, ih (Nat.le_of_succ_le hk) (x0 + (k : Int), srcY)]
      rw [if_neg (by rintro ⟨_, _, h2⟩; omega)]
      rw [if_pos]
      · rw [hp]
      · rw [hp]
        refine ⟨rfl, by omega, by push_cast; omega⟩
    · rw [if_neg hp, ih (Nat.le_of_succ_le hk) p]
      have hne : ¬(p.1 = x0 + (k : Int) ∧ p.2 = dstY) := by
        intro ⟨h1, h2⟩
        exact hp (Prod.ext h1 h2)
      by_cases hd : p.2 = dstY
      · by_cases hx : x0 ≤ p.1 ∧ p.1 < x0 + (k : Int)
        · rw [if_pos ⟨hd, hx.1, hx.2⟩, if_pos ⟨hd, hx.1, by push_cast; omega⟩]
        · rw [if_neg (by rintro ⟨_, b1, b2⟩; exact hx ⟨b1, b2⟩), if_neg]
          rintro ⟨_, b1, b2⟩
          have : p.1 ≠ x0 + (k : Int) := fun hc => hne ⟨hc, hd⟩
          push_cast at b2
          exact hx ⟨b1, by omega⟩
      · rw [if_neg (by rintro ⟨b0, _, _⟩; exact hd b0),
            if_neg (by rintro ⟨b0, _, _⟩; exact hd b0)]

/-- Upward pass (`vy = A ≥ 0`): pixels outside the first `k` destination
rows, or outside the region's columns, are untouched. -/
theorem svsVertUp_untouched (x0 y0 : Int) (w h A : Nat) (img : Pt → Color) :
    ∀ k, k ≤ h → ∀ p : Pt,
      (p.2 < y0 ∨ y0 + (k : Int) ≤ p.2 ∨ p.1 < x0 ∨ x0 + (w : Int) ≤ p.1) →
      svsVert x0 y0 w h ((A : Nat) : Int) img k p = img p := by
  intro k
  induction k with
  | zero => intro _ p _; rfl
  | succ k ih =>
    intro hk p hp
    have hpos : (0 : Int) ≤ ((A : Nat) : Int) := Int.natCast_nonneg A
    simp only [svsVert, if_pos hpos]
    rw [svsRow_apply x0 w _ _ _ w le_rfl p]
    rw [if_neg]
    · refine ih (Nat.le_of_succ_le hk) p ?_
      rcases hp with h1 | h2 | h3 | h4
      · exact Or.inl h1
      · exact Or.inr (Or.inl (by push_cast at h2 ⊢; omega))
      · exact Or.inr (Or.inr (Or.inl h3))
      · exact Or.inr (Or.inr (Or.inr h4))
    · rintro ⟨b0, b1, b2⟩
      rcases hp with h1 | h2 | h3 | h4
      · omega
      · push_cast at h2; omega
      · omega
      · omega

/-- Upward pass: destination row `t` (with `t + A` still inside the region)
receives the original pixel from row `t + A`. -/
theorem svsVertUp_value (x0 y0 : Int) (w h A : Nat) (img : Pt → Color) :
    ∀ k, k ≤ h → ∀ t : Nat, t < k → t + A < h → ∀ x : Int,
      x0 ≤ x → x < x0 + (w : Int) →
      svsVert x0 y0 w h ((A : Nat) : Int) img k (x, y0 + (t : Int)) =
        img (x, y0 + ((t + A : Nat) : Int)) := by
  intro k
  induction k with
  | zero => intro _ t ht; omega
  | succ k ih =>
    intro hk t ht htA x hx1 hx2
    have hpos : (0 : Int) ≤ ((A : Nat) : Int) := Int.natCast_nonneg A
    simp only [svsVert, if_pos hpos]
    rw [svsRow_apply x0 w _ _ _ w le_rfl (x, y0 + (t : Int))]
    by_cases htk : t = k
    · rw [if_pos ⟨by rw [htk], hx1, hx2⟩]
      have hkA : k + A < h := by omega
      have hsrc : y0 + ((y0 + (k : Int)) + ((A : Nat) : Int) - y0) % ((h : Nat) : Int) =
          y0 + ((k + A : Nat) : Int) := by
        have h1 : (y0 + (k : Int)) + ((A : Nat) : Int) - y0 = ((k + A : Nat) : Int) := by
          push_cast; ring
        rw [h1, Int.emod_eq_of_lt (Int.natCast_nonneg _) (by exact_mod_cast hkA)]
      rw [hsrc]
      rw [show ((t + A : Nat) : Int) = ((k + A : Nat) : Int) by rw [htk]]
      refine svsVertUp_untouched x0 y0 w h A img k (Nat.le_of_succ_le hk) _ ?_
      exact Or.inr (Or.inl (by push_cast; omega))
    · rw [if_neg (by rintro ⟨b0, _, _⟩; omega)]
      exact ih (Nat.le_of_succ_le hk) t (by omega) htA x hx1 hx2

/-- Downward pass (`vy = −B`, `B ≥ 1`): pixels above the last `k`
destination rows (which are the bottom-most rows), below the region, or
outside its columns, are untouched. -/
theorem svsVertDown_untouched (x0 y0 : Int) (w h B : Nat) (hB : 1 ≤ B)
    (img : Pt → Color) :
    ∀ k, k ≤ h → ∀ p : Pt,
      (p.2 < y0 + ((h : Int) - (k : Int)) ∨ y0 + (h : Int) ≤ p.2 ∨
        p.1 < x0 ∨ x0 + (w : Int) ≤ p.1) →
      svsVert x0 y0 w h (-((B : Nat) : Int)) img k p = img p := by
  intro k
  induction k with
  | zero => intro _ p _; rfl
  | succ k ih =>
    intro hk p hp
    have hneg : ¬(0 : Int) ≤ -((B : Nat) : Int) := by
      have : (1 : Int) ≤ (B : Int) := by exact_mod_cast hB
      omega
    simp only [svsVert, if_neg hneg]
    rw [svsRow_apply x0 w _ _ _ w le_rfl p]
    rw [if_neg]
    · refine ih (Nat.le_of_succ_le hk) p ?_
      rcases hp with h1 | h2 | h3 | h4
      · exact Or.inl (by push_cast at h1 ⊢; omega)
      · exact Or.inr (Or.inl h2)
      · exact Or.inr (Or.inr (Or.inl h3))
      · exact Or.inr (Or.inr (Or.inr h4))
    · rintro ⟨b0, b1, b2⟩
      rcases hp with h1 | h2 | h3 | h4
      · push_cast at h1; omega
      · omega
      · omega
      · omega

/-- Downward pass: destination row `t` (with `B ≤ t`, inside the region)
receives the original pixel from row `t − B`. -/
theorem svsVertDown_value (x0 y0 : Int) (w h B : Nat) (hB : 1 ≤ B)
    (img : Pt → Color) :
    ∀ k, k ≤ h → ∀ t : Nat, t < h → B ≤ t → (h : Int) - (k : Int) ≤ (t : Int) →
      ∀ x : Int, x0 ≤ x → x < x0 + (w : Int) →
      svsVert x0 y0 w h (-((B : Nat) : Int)) img k (x, y0 + (t : Int)) =
        img (x, y0 + ((t - B : Nat) : Int)) := by
  intro k
  induction k with
  | zero => intro _ t ht _ hlo; omega
  | succ k ih =>
    intro hk t ht htB hlo x hx1 hx2
    have hneg : ¬(0 : Int) ≤ -((B : Nat) : Int) := by
      have : (1 : Int) ≤ (B : Int) := by exact_mod_cast hB
      omega
    simp only [svsVert, if_neg hneg]
    rw [svsRow_apply x0 w _ _ _ w le_rfl (x, y0 + (t : Int))]
    by_cases htk : (t : Int) = (h : Int) - ((k : Int) + 1)
    · rw [if_pos ⟨by push_cast; omega, hx1, hx2⟩]
      have hcastTB : ((t - B : Nat) : Int) = (t : Int) - (B : Int) := Nat.cast_sub htB
      have hltTB : ((t - B : Nat) : Int) < ((h : Nat) : Int) := by
        rw [hcastTB]
        have : (t : Int) < (h : Int) := by exact_mod_cast ht
        have hB0 : (0 : Int) ≤ (B : Int) := Int.natCast_nonneg B
        omega
      have hsrc : y0 + ((y0 + (h : Int) - ((k : Int) + 1)) + -((B : Nat) : Int) - y0) % ((h : Nat) : Int) =
          y0 + ((t - B : Nat) : Int) := by
        have h1 : (y0 + (h : Int) - ((k : Int) + 1)) + -((B : Nat) : Int) - y0 =
            ((t - B : Nat) : Int) := by
          rw [hcastTB]
          omega
        rw [h1, Int.emod_eq_of_lt (Int.natCast_nonneg _) hltTB]
      rw [hsrc]
      refine svsVertDown_untouched x0 y0 w h B hB img k (Nat.le_of_succ_le hk) _ ?_
      exact Or.inl (by push_cast [Nat.cast_sub htB]; omega)
    · rw [if_neg (by rintro ⟨b0, _, _⟩; push_cast at b0; omega)]
      exact ih (Nat.le_of_succ_le hk) t ht htB (by push_cast at hlo ⊢; omega) x hx1 hx2

/-- C8: in the software scroll path, `Scroll(N)` followed by `Scroll(−N)`
over a scroll region `[top, bot]` whose `N` rows fit within the region is
the identity on every region pixel outside the newly cleared band (the top
`N` cell rows cleared by the downward scroll); the claim holds as stated. -/
theorem c8_scroll_up_down_identity
    (img : Pt → Color) (cols top bot N : Nat) (bg : Color) (x y : Int)
    (hN : 1 ≤ N) (htb : top ≤ bot) (hfit : N ≤ bot + 1 - top)
    (hx1 : 0 ≤ x) (hx2 : x < ((cols * 8 : Nat) : Int))
    (hy1 : ((top : Int) + (N : Int)) * 16 ≤ y) (hy2 : y < ((bot : Int) + 1) * 16) :
    scrollRegionDown (scrollRegionUp img cols top bot N bg) cols top bot N bg (x, y)
      = img (x, y) := by
  have hcast : (((bot + 1 - top) * 16 : Nat) : Int) = (((bot : Int) + 1) - top) * 16 := by
    push_cast [Nat.cast_sub (by omega : top ≤ bot + 1)]
    ring
  have hB1 : 1 ≤ N * 16 := by omega
  -- the observed pixel, as an offset t from the region top
  have hy0 : (top : Int) * 16 ≤ y := by omega
  obtain ⟨t, htEq⟩ : ∃ t : Nat, y = (top : Int) * 16 + (t : Int) :=
    ⟨(y - (top : Int) * 16).toNat, by omega⟩
  have htlt : t < (bot + 1 - top) * 16 := by
    have := hy2
    rw [htEq] at this
    have h2 : (t : Int) < (((bot + 1 - top) * 16 : Nat) : Int) := by rw [hcast]; omega
    exact_mod_cast h2
  have htge : N * 16 ≤ t := by
    have := hy1
    rw [htEq] at this
    have h2 : ((N * 16 : Nat) : Int) ≤ (t : Int) := by push_cast at this ⊢; omega
    exact_mod_cast h2
  -- unfold the downward scroll: the pixel is outside the cleared top band
  rw [scrollRegionDown, fillRect]
  rw [if_neg (by
    rintro ⟨_, _, _, hband⟩
    rw [htEq] at hband
    push_cast at hband
    omega)]
  -- the downward pass maps the pixel back to row offset t − N·16
  rw [softVectorScrollVert, htEq]
  rw [svsVertDown_value 0 ((top : Int) * 16) (cols * 8) ((bot + 1 - top) * 16)
        (N * 16) hB1 _ _ le_rfl t htlt htge (by omega) x (by omega) (by omega)]
  -- unfold the upward scroll: offset t − N·16 is above the cleared bottom band
  rw [scrollRegionUp, fillRect]
  rw [if_neg (by
    rintro ⟨_, _, _, hband⟩
    push_cast [Nat.cast_sub htge] at hband
    omega)]
  -- the upward pass took that pixel from offset (t − N·16) + N·16 = t
  rw [softVectorScrollVert]
  rw [svsVertUp_value 0 ((top : Int) * 16) (cols * 8) ((bot + 1 - top) * 16)
        (N * 16) img _ le_rfl (t - N * 16) (by omega) (by omega) x (by omega) (by omega)]
  have hAdd : t - N * 16 + N * 16 = t := by omega
  rw [hAdd]

/-- C8 witness: one concrete instance of the scroll round-trip identity
(1 column, region rows `[0,1]`, scroll by one row, pixel `(3, 20)`). -/
theorem c8_witness :
    1 ≤ 1 ∧ 0 ≤ 1 ∧ 1 ≤ 1 + 1 - 0 ∧ (0 : Int) ≤ 3 ∧
    (3 : Int) < ((1 * 8 : Nat) : Int) ∧
    (((0 : Nat) : Int) + ((1 : Nat) : Int)) * 16 ≤ 20 ∧
    (20 : Int) < (((1 : Nat) : Int) + 1) * 16 ∧
    scrollRegionDown
        (scrollRegionUp (fun p => ⟨p.2.toNat, p.1.toNat, 7⟩) 1 0 1 1 ⟨9, 9, 9⟩)
        1 0 1 1 ⟨9, 9, 9⟩ (3, 20) = (fun p : Pt => (⟨p.2.toNat, p.1.toNat, 7⟩ : Color)) (3, 20) :=
  ⟨le_rfl, by omega, by omega, by omega, by decide, by decide, by decide,
   c8_scroll_up_down_identity (fun p => ⟨p.2.toNat, p.1.toNat, 7⟩) 1 0 1 1 ⟨9, 9, 9⟩ 3 20
     (by omega) (by omega) (by omega) (by omega) (by decide) (by decide) (by decide)⟩

end Fansiterm
